import Mathlib

/-!
Verification of the cloudcourse registration rule engine.

This file gives a shallow embedding of the registration state machine
(core/utils.py), the rule-evaluation orchestrator
(trunk/core/rule_engine.py, function `_RulesEvaluate`), the online
registration/unregistration paths and the offline unregistration path
(trunk/core/rule_engine.py), the distributed resource counter
(trunk/core/rules.py, class `RuleRegisterResource`) together with the
`max_people` rule (trunk/core/rules_impl.py, class `MaxNumberRegisteredBy`),
and the resource-rebuild accounting predicates
(trunk/core/rules_impl.py, `_UpdateQueryMode` / `_RegistrationNeedsAccounting`).

Python `None` is a legal registration status, so statuses are `Option RegStatus`.
Entity keys, users, activities and rule tags are modelled as naturals; memcache
keys keep their string form from the source.  Fields of the datastore entities
that no modelled code path reads (queue time, schedule lists, notify flags of
the e-mail layer) are omitted from the record model.
-/

/-- The three concrete states of `utils.RegistrationStatus`. -/
inductive RegStatus
  | enrolled
  | waitlisted
  | unregistered
deriving DecidableEq, Repr, Fintype

/-- A registration status as the Python code sees it: one of the three
`RegistrationStatus` strings or `None`. -/
abbrev Status := Option RegStatus

/-- `utils.RegistrationConfirm` values. -/
inductive RegistrationConfirm
  | not_ready
  | ready
  | processed
deriving DecidableEq, Repr, Fintype

/-- `utils.RegistrationActive` values. -/
inductive RegistrationActive
  | active
  | inactive
deriving DecidableEq, Repr, Fintype

/-- `utils.RegistrationStatus.VALID_TRANSITIONS`: per current status the list
of allowed target statuses, ordered from lower to higher precedence. -/
def VALID_TRANSITIONS : Status → List Status
  | none => [some .enrolled, some .waitlisted, none]
  | some .enrolled => [some .unregistered, some .enrolled]
  | some .unregistered => [some .enrolled, some .waitlisted, some .unregistered]
  | some .waitlisted => [some .enrolled, some .unregistered, some .waitlisted]

/-- `utils.RegistrationStatus.IsValidTransition`: a transition is valid when
begin and end states coincide or the end state is listed for the begin state.
(The `begin_state in cls.VALID_TRANSITIONS` check of the source is always true
here because the table is total over the four statuses.) -/
def IsValidTransition (begin_state end_state : Status) : Bool :=
  begin_state == end_state || (VALID_TRANSITIONS begin_state).contains end_state

/-- Priority of a status for a given initial status: its index in the
precedence-ordered transition list (`status_priority` in `_RulesEvaluate`). -/
def statusPriority (initial s : Status) : Nat :=
  (VALID_TRANSITIONS initial).indexOf s

/-- `status_stop` of `_RulesEvaluate`: the statuses carrying the maximal
priority for the initial status. -/
def statusStop (initial : Status) : List Status :=
  let order := VALID_TRANSITIONS initial
  let maxP := order.length - 1
  order.filter (fun k => statusPriority initial k == maxP)

/-- The outcome an individual rule instance produces when evaluated, as
returned by `RuleRegister.Evaluate`: whether the instance is a registration
rule at all (`IsRegister`), its verdict status, its rule tags and its
remaining-resource estimate. -/
structure RuleOutcome where
  isRegisterRule : Bool
  ruleStatus : Status
  ruleTags : List Nat
  resourceRemaining : Int
deriving DecidableEq, Repr

/-- A `rules.RuleConfig` as the orchestrator sees it: its unique key and the
list of rule instances `CreateRules` produces for the evaluation context
(one per schedule/access-point pair when the rule cannot batch). -/
structure RuleConfigE where
  cfgId : Nat
  createdRules : List RuleOutcome
deriving DecidableEq, Repr

/-- One entry of `rule_results` inside `_RulesEvaluate`:
`(rule_config, rule, rule_status, rule_tags, resource_remaining)`. -/
structure RuleRes where
  resCfg : Nat
  resStatus : Status
  resTags : List Nat
  resRemaining : Int
deriving DecidableEq, Repr

/-- `errors.BadStateTransition`, carrying the offending edge. -/
inductive EngineError
  | badStateTransition (initial target : Status)
deriving DecidableEq, Repr

/-- Inner loop of `_RulesEvaluate` over the rule list of one config: evaluates
register rules in order, raises on an illegal verdict, and reports whether the
early-exit `status_stop` break fired. -/
def EvaluateConfigRules (initial : Status) (stop : List Status) (force : Bool)
    (cfgId : Nat) : List RuleOutcome → Except EngineError (List RuleRes × Bool)
  | [] => .ok ([], false)
  | r :: rest =>
    if r.isRegisterRule then
      if IsValidTransition initial r.ruleStatus then
        let res : RuleRes := ⟨cfgId, r.ruleStatus, r.ruleTags, r.resourceRemaining⟩
        if stop.contains r.ruleStatus && !force then
          .ok ([res], true)
        else
          match EvaluateConfigRules initial stop force cfgId rest with
          | .error e => .error e
          | .ok (rs, b) => .ok (res :: rs, b)
      else
        .error (.badStateTransition initial r.ruleStatus)
    else
      EvaluateConfigRules initial stop force cfgId rest

/-- Outer loop of `_RulesEvaluate` over the generated rule configs, honouring
the `use_break` flag set by the inner loop. -/
def EvaluateAllRules (initial : Status) (stop : List Status) (force : Bool) :
    List RuleConfigE → Except EngineError (List RuleRes)
  | [] => .ok []
  | c :: rest =>
    match EvaluateConfigRules initial stop force c.cfgId c.createdRules with
    | .error e => .error e
    | .ok (rs, brk) =>
      if brk then .ok rs
      else
        match EvaluateAllRules initial stop force rest with
        | .error e => .error e
        | .ok rs2 => .ok (rs ++ rs2)

/-- Fold implementing Python's `max` over `(status_priority[s], s)` pairs:
the current maximum is replaced only by a strictly higher priority (equal
priorities always carry the same status because priorities are the positions
of a duplicate-free list). -/
def maxStatusFold (initial : Status) (s0 : Status) (rest : List Status) : Status :=
  rest.foldl
    (fun acc s => if statusPriority initial acc < statusPriority initial s then s else acc)
    s0

/-- The dictionary `_RulesEvaluate` returns. -/
structure EvalResult where
  final_status : Status
  all_rule_results : List (Nat × Status)
  all_rule_configs : List Nat
  all_rule_resources_remaining : List Int
  all_rule_tags : Finset Nat
  affecting_rule_tags : Finset Nat
  affecting_rule_configs : Finset Nat
deriving DecidableEq

/-- `rule_engine._RulesEvaluate`.  `programTag` and `activityTag` are the two
engine-level tags `_GetRuleTagForEntity` derives from the program and activity
keys of the evaluation context. -/
def RulesEvaluate (force : Bool) (programTag activityTag : Nat)
    (initial target : Status) (configs : List RuleConfigE) :
    Except EngineError EvalResult :=
  if IsValidTransition initial target then
    match EvaluateAllRules initial (statusStop initial) force configs with
    | .error e => .error e
    | .ok rule_results =>
      let final0 : Status :=
        match rule_results with
        | [] => target
        | r :: rs => maxStatusFold initial r.resStatus (rs.map RuleRes.resStatus)
      let engineTags : Finset Nat := {programTag, activityTag}
      let all_tags : Finset Nat :=
        (rule_results.foldl (fun s r => s ∪ r.resTags.toFinset) ∅) ∪ engineTags
      let affecting_tags : Finset Nat :=
        (rule_results.foldl
          (fun s r => if r.resStatus = final0 then s ∪ r.resTags.toFinset else s) ∅)
          ∪ engineTags
      let affecting_cfgs : Finset Nat :=
        rule_results.foldl
          (fun s r => if r.resStatus = final0 then insert r.resCfg s else s) ∅
      if force then
        .ok { final_status := target
              all_rule_results := rule_results.map (fun r => (r.resCfg, r.resStatus))
              all_rule_configs := rule_results.map RuleRes.resCfg
              all_rule_resources_remaining := rule_results.map RuleRes.resRemaining
              all_rule_tags := all_tags
              affecting_rule_tags := all_tags
              affecting_rule_configs := (rule_results.map RuleRes.resCfg).toFinset }
      else
        .ok { final_status := final0
              all_rule_results := rule_results.map (fun r => (r.resCfg, r.resStatus))
              all_rule_configs := rule_results.map RuleRes.resCfg
              all_rule_resources_remaining := rule_results.map RuleRes.resRemaining
              all_rule_tags := all_tags
              affecting_rule_tags := affecting_tags
              affecting_rule_configs := affecting_cfgs }
  else
    .error (.badStateTransition initial target)

/-- Whether an engine computation succeeded (no exception raised). -/
def evalSucceeds (e : Except EngineError EvalResult) : Bool :=
  match e with
  | .ok _ => true
  | .error _ => false

instance {ε α : Type} [DecidableEq ε] [DecidableEq α] :
    DecidableEq (Except ε α) := fun a b =>
  match a, b with
  | .ok x, .ok y =>
    if h : x = y then .isTrue (by rw [h]) else .isFalse (by simp [h])
  | .error x, .error y =>
    if h : x = y then .isTrue (by rw [h]) else .isFalse (by simp [h])
  | .ok _, .error _ => .isFalse (by simp)
  | .error _, .ok _ => .isFalse (by simp)

/-- The registration state machine exactly as the specification words it
(spec-side definition, to be compared with `IsValidTransition` from the
source): None to ENROLLED/WAITLISTED/None, ENROLLED to
UNREGISTERED/ENROLLED, UNREGISTERED to ENROLLED/WAITLISTED/UNREGISTERED,
WAITLISTED to ENROLLED/UNREGISTERED/WAITLISTED, plus any reflexive pair. -/
def ClaimLegalEdge (i t : Status) : Bool :=
  i == t ||
  (match i with
   | none => t == some .enrolled || t == some .waitlisted || t == none
   | some .enrolled => t == some .unregistered || t == some .enrolled
   | some .unregistered =>
     t == some .enrolled || t == some .waitlisted || t == some .unregistered
   | some .waitlisted =>
     t == some .enrolled || t == some .unregistered || t == some .waitlisted)

/-- A `models.UserRegistration` entity, restricted to the fields the rule
engine reads or writes.  `parentReg` is the datastore ancestor link an
unregister record keeps to the enroll record it cancels. -/
structure UserRegistration where
  regId : Nat
  regUser : Nat
  regActivity : Nat
  status : Status
  confirmed : RegistrationConfirm
  active : RegistrationActive
  rule_tags : Finset Nat
  affecting_rule_tags : Finset Nat
  affecting_rule_configs : Finset Nat
  parentReg : Option Nat
  online_unregistered : Bool
  force_status : Bool
deriving DecidableEq

/-- The datastore contents relevant here: the set of UserRegistration rows. -/
abbrev Store := List UserRegistration

/-- The filter of `models.UserRegistration.ActiveQuery`: rows of this user and
activity with `active = ACTIVE`. -/
def isActiveFor (u a : Nat) (r : UserRegistration) : Bool :=
  r.regUser == u && r.regActivity == a && r.active == .active

/-- `models.UserRegistration.ActiveQuery` for a (user, activity) pair. -/
def ActiveQuery (store : Store) (u a : Nat) : List UserRegistration :=
  store.filter (isActiveFor u a)

/-- `rule_engine._GetActiveUserRegistration`: the first (and, by the
engine's invariant, only) active row for the pair, if any. -/
def GetActiveUserRegistration (store : Store) (u a : Nat) : Option UserRegistration :=
  (ActiveQuery store u a).head?

/-- Number of active registrations of a (user, activity) pair. -/
def countActive (store : Store) (u a : Nat) : Nat :=
  (ActiveQuery store u a).length

/-- The invariant: at most one ACTIVE registration per (registrant, activity). -/
def AtMostOneActive (store : Store) : Prop :=
  ∀ u a, countActive store u a ≤ 1

/-- A `rule_engine.EvalContext`, restricted to what the modelled paths read:
the registrant, the activity, the force flag, the engine-level tags of the
owning program and activity, and the rule configs `_RuleGenerator` yields for
the context (program rules, then activity rules, then deduplicated
access-point rules). -/
structure EvalContextE where
  ctxUser : Nat
  ctxActivity : Nat
  force_status : Bool
  programTag : Nat
  activityTag : Nat
  configs : List RuleConfigE
deriving DecidableEq

/-- The provisional entry `_RegisterOnlineUnsafe` writes before evaluating any
rule: `status=ENROLLED`, `confirmed=NOT_READY`, `active=INACTIVE`. -/
def NewRegistrationEntry (newId : Nat) (ctx : EvalContextE) : UserRegistration :=
  { regId := newId
    regUser := ctx.ctxUser
    regActivity := ctx.ctxActivity
    status := some .enrolled
    confirmed := .not_ready
    active := .inactive
    rule_tags := ∅
    affecting_rule_tags := ∅
    affecting_rule_configs := ∅
    parentReg := none
    online_unregistered := false
    force_status := false }

/-- `rule_engine._RegisterOnlineUnsafe`.  Returns the pair
(result-or-exception, datastore after the call); the result is the returned
`(final_status, reasons)` where reasons are the affecting rule config keys.
A raised `BadStateTransition` leaves the provisional row behind, as in the
source, where the exception propagates after `new_entry.put()`. -/
def RegisterOnlineUnsafe (store : Store) (newId : Nat) (ctx : EvalContextE) :
    Except EngineError (Status × Finset Nat) × Store :=
  match GetActiveUserRegistration store ctx.ctxUser ctx.ctxActivity with
  | some active_registration =>
    if !ctx.force_status then
      (.ok (active_registration.status, ∅), store)
    else
      if active_registration.status = some .enrolled then
        (.ok (some .enrolled, ∅), store)
      else
        (.ok (some .enrolled, ∅),
         store.map (fun r =>
           if r.regId = active_registration.regId then
             { r with status := some .enrolled, confirmed := .ready,
                      force_status := true }
           else r))
  | none =>
    let new_entry := NewRegistrationEntry newId ctx
    let store1 := store ++ [new_entry]
    match RulesEvaluate ctx.force_status ctx.programTag ctx.activityTag
        none (some .enrolled) ctx.configs with
    | .error e => (.error e, store1)
    | .ok result =>
      let final_status := result.final_status
      let reasons : Finset Nat :=
        if final_status = some .enrolled then ∅ else result.affecting_rule_configs
      if final_status = none then
        (.ok (none, reasons), store1.filter (fun r => r.regId != newId))
      else
        (.ok (final_status, reasons),
         store1.map (fun r =>
           if r.regId = newId then
             { r with status := final_status, confirmed := .ready,
                      active := .active,
                      rule_tags := result.all_rule_tags,
                      affecting_rule_tags := result.affecting_rule_tags,
                      affecting_rule_configs := result.affecting_rule_configs }
           else r))

/-- `rule_engine._UnregisterOnlineUnsafe`.  On acceptance it transactionally
creates the child unregister row (`UNREGISTERED`/`READY`/`INACTIVE`) and flips
the active row to INACTIVE; on denial it changes nothing and returns the
denial reasons. -/
def UnregisterOnlineUnsafe (store : Store) (newId : Nat) (ctx : EvalContextE) :
    Except EngineError (Status × Finset Nat) × Store :=
  match GetActiveUserRegistration store ctx.ctxUser ctx.ctxActivity with
  | none => (.ok (some .unregistered, ∅), store)
  | some active_registration =>
    match RulesEvaluate ctx.force_status ctx.programTag ctx.activityTag
        active_registration.status (some .unregistered) ctx.configs with
    | .error e => (.error e, store)
    | .ok result =>
      let final_status := result.final_status
      if final_status = some .unregistered then
        let new_entry : UserRegistration :=
          { regId := newId
            regUser := ctx.ctxUser
            regActivity := ctx.ctxActivity
            status := some .unregistered
            confirmed := .ready
            active := .inactive
            rule_tags := result.all_rule_tags
            affecting_rule_tags := result.affecting_rule_tags
            affecting_rule_configs := result.affecting_rule_configs
            parentReg := some active_registration.regId
            online_unregistered := false
            force_status := false }
        (.ok (some .unregistered, ∅),
         (store.map (fun r =>
            if r.regId = active_registration.regId then
              { r with active := .inactive }
            else r)) ++ [new_entry])
      else
        (.ok (final_status, result.affecting_rule_configs), store)

/-- The observable side effects of `_UnregisterOfflineUnsafe` towards the
collaborators: whether the once-only online decrement ran
(`_RulesNotifyOnline`), whether offline resources were released
(`_RulesNotify` on the evaluated results), which rule tags were recorded for
reprocessing (`SaveRuleTagsToReprocess`), and whether the user-notification
routine was invoked. -/
structure OfflineEffects where
  online_decremented : Bool
  resources_released : Bool
  reprocess_tags_saved : Finset Nat
  user_notified : Bool
deriving DecidableEq

/-- Failures of the offline unregistration step: a missing parent entity, a
propagated engine exception, or the `final_status == UNREGISTERED` assertion. -/
inductive OfflineError
  | missingParent
  | engine (e : EngineError)
  | assertionFailed
deriving DecidableEq

/-- `rule_engine._UnregisterOfflineUnsafe` for one unregister row. -/
def UnregisterOfflineUnsafe (store : Store) (unreg : UserRegistration)
    (ctx : EvalContextE) : Except OfflineError (OfflineEffects × Store) :=
  match unreg.parentReg.bind (fun pid => store.find? (fun r => r.regId == pid)) with
  | none => .error .missingParent
  | some parent_enroll =>
    let processed_enroll : Bool :=
      parent_enroll.confirmed == .processed && parent_enroll.status == some .enrolled
    match RulesEvaluate ctx.force_status ctx.programTag ctx.activityTag
        parent_enroll.status (some .unregistered) ctx.configs with
    | .error e => .error (.engine e)
    | .ok result =>
      if result.final_status = some .unregistered then
        let online_decrement := unreg.online_unregistered
        let store1 := store.map (fun r =>
          if r.regId = unreg.regId then { r with online_unregistered := true } else r)
        let effects : OfflineEffects :=
          { online_decremented := !online_decrement
            resources_released := processed_enroll
            reprocess_tags_saved :=
              if processed_enroll then result.affecting_rule_tags else ∅
            user_notified := true }
        let store2 := store1.filter (fun r =>
          r.regId != unreg.regId && r.regId != parent_enroll.regId)
        .ok (effects, store2)
      else
        .error .assertionFailed

/-- The distributed cache a resource rule talks to, restricted to one rule
namespace: an availability bit (false models the cache tier being unusable,
where every primitive fails), the per-key counter values, and the special
list stored under the `__init__` key.  Keys may vanish; nothing here is a
source of truth. -/
structure Memcache where
  avail : Bool
  vals : List (String × Int)
  initKeys : Option (List String)
deriving DecidableEq, Repr

/-- Value association, ignoring availability. -/
def mcLookup (vals : List (String × Int)) (k : String) : Option Int :=
  (vals.find? (fun kv => kv.1 == k)).map Prod.snd

/-- Helper: set a key's value in the association list. -/
def mcStore (vals : List (String × Int)) (k : String) (v : Int) :
    List (String × Int) :=
  if vals.any (fun kv => kv.1 == k) then
    vals.map (fun kv => if kv.1 == k then (k, v) else kv)
  else vals ++ [(k, v)]

/-- `memcache.get` on a value key. -/
def mcGet (m : Memcache) (k : String) : Option Int :=
  if m.avail then mcLookup m.vals k else none

/-- `memcache.incr`: atomic +1, `None` when the key is absent or the cache
is unusable. -/
def mcIncr (m : Memcache) (k : String) : Option Int × Memcache :=
  if m.avail then
    match mcLookup m.vals k with
    | some v => (some (v + 1), { m with vals := mcStore m.vals k (v + 1) })
    | none => (none, m)
  else (none, m)

/-- `memcache.decr`: best-effort -1, silently doing nothing on a miss. -/
def mcDecr (m : Memcache) (k : String) : Memcache :=
  if m.avail then
    match mcLookup m.vals k with
    | some v => { m with vals := mcStore m.vals k (v - 1) }
    | none => m
  else m

/-- `memcache.add` on a value key: writes only when absent, reporting
whether the write happened. -/
def mcAdd (m : Memcache) (k : String) (v : Int) : Bool × Memcache :=
  if m.avail then
    match mcLookup m.vals k with
    | some _ => (false, m)
    | none => (true, { m with vals := m.vals ++ [(k, v)] })
  else (false, m)

/-- `memcache.add_multi`: add each absent key of the context. -/
def mcAddMulti (m : Memcache) (ctx : List (String × Int)) : Memcache :=
  ctx.foldl (fun acc kv => (mcAdd acc kv.1 kv.2).2) m

/-- `memcache.get` on the `__init__` key. -/
def mcGetInit (m : Memcache) : Option (List String) :=
  if m.avail then m.initKeys else none

/-- `memcache.add` on the `__init__` key. -/
def mcAddInit (m : Memcache) (ks : List String) : Memcache :=
  if m.avail then
    match m.initKeys with
    | some _ => m
    | none => { m with initKeys := some ks }
  else m

/-- `memcache.set` on the `__init__` key. -/
def mcSetInit (m : Memcache) (ks : List String) : Memcache :=
  if m.avail then { m with initKeys := some ks } else m

/-- Failures of the resource-counter layer: `errors.AppengineError`, and the
`assert value > 0` of `RuleRegisterResource._Regenerate`. -/
inductive RuleError
  | appengineError
  | assertionFailed
deriving DecidableEq, Repr

/-- `rules._NUM_RETRIES`. -/
def NUM_RETRIES : Nat := 1

/-- `RuleRegisterResource._Regenerate`: rebuild the counters from the
source-of-truth context `ctx0` (the result of `_BuildContext`), subtracting
one per key online outside prediction mode because the triggering provisional
registration is already persisted, then `add_multi` the values and `add` the
key list under `__init__`. -/
def Regenerate (ctx0 : List (String × Int)) (online predict : Bool)
    (m : Memcache) : Except RuleError Memcache :=
  if online && !predict then
    if ctx0.all (fun kv => 0 < kv.2) then
      let ctx := ctx0.map (fun kv => (kv.1, kv.2 - 1))
      .ok (mcAddInit (mcAddMulti m ctx) (ctx.map Prod.fst))
    else .error .assertionFailed
  else .ok (mcAddInit (mcAddMulti m ctx0) (ctx0.map Prod.fst))

/-- `RuleRegisterResource._Get`: read with one regenerate-and-retry round per
remaining retry. -/
def RuleGet (ctx0 : List (String × Int)) (online predict : Bool) (k : String) :
    Nat → Memcache → Except RuleError (Option Int × Memcache)
  | retries, m =>
    match mcGet m k with
    | some v => .ok (some v, m)
    | none =>
      match retries with
      | 0 => .ok (none, m)
      | r + 1 =>
        match Regenerate ctx0 online predict m with
        | .error e => .error e
        | .ok m1 => RuleGet ctx0 online predict k r m1

/-- `RuleRegisterResource._Incr`.  In prediction mode it only reads.
Otherwise it attempts the atomic increment, regenerating from the source of
truth and retrying on a miss, creating on-the-fly keys via `add`, and — when
the value still cannot be obtained after the retry bound — raising
`errors.AppengineError` (the function never returns `None`, its docstring
notwithstanding). -/
def RuleIncr (ctx0 : List (String × Int)) (online predict : Bool) (k : String) :
    Nat → Memcache → Except RuleError (Int × Memcache)
  | retries, m =>
    if predict then
      match RuleGet ctx0 online predict k NUM_RETRIES m with
      | .error e => .error e
      | .ok (g, m1) =>
        match g with
        | none => .ok (1, m1)
        | some v => if v = 0 then .ok (1, m1) else .ok (v + 1, m1)
    else
      match mcIncr m k with
      | (some v, m1) => .ok (v, m1)
      | (none, m1) =>
        let ek0 := mcGetInit m1
        let step1 : Except RuleError (Option (List String) × Memcache) :=
          if ek0.isNone || (ek0.getD []).contains k then
            match Regenerate ctx0 online predict m1 with
            | .error e => .error e
            | .ok m2 => .ok (mcGetInit m2, m2)
          else .ok (ek0, m1)
        match step1 with
        | .error e => .error e
        | .ok (ek, m2) =>
          if ek.isNone || (ek.getD []).contains k then
            match retries with
            | r + 1 => RuleIncr ctx0 online predict k r m2
            | 0 => .error .appengineError
          else
            match mcAdd m2 k 1 with
            | (false, m3) =>
              match retries with
              | r + 1 => RuleIncr ctx0 online predict k r m3
              | 0 => .error .appengineError
            | (true, m3) =>
              .ok (1, mcSetInit m3 ((ek.getD []) ++ [k]))

/-- What `MaxNumberRegisteredBy._Evaluate` returns: the verdict, the
contextualized resource key as the single rule tag, and the remaining
resource estimate. -/
structure ResourceRuleOut where
  outStatus : Status
  outTags : List String
  outRemaining : Option Int
deriving DecidableEq, Repr

/-- `MaxNumberRegisteredBy._Evaluate` (trunk/core/rules_impl.py).  `ruleKey`
is the rule's unique key (`self.key`), `ctx0` the `_BuildContext` result used
on regeneration, `key` the resource sub-key before `_NormalizeKey`. -/
def MaxEvaluate (max_people : Int) (ruleKey : String)
    (ctx0 : List (String × Int)) (online predict : Bool) (key : String)
    (_unused_initial_state target : Status) (m : Memcache) :
    Except RuleError (ResourceRuleOut × Memcache) :=
  let k := if key = "" then "_" else key
  if target = some .enrolled then
    match RuleIncr ctx0 online predict k NUM_RETRIES m with
    | .error e => .error e
    | .ok (num_students, m1) =>
      if num_students ≤ max_people then
        .ok ({ outStatus := some .enrolled
               outTags := [ruleKey ++ k]
               outRemaining := some (max_people - num_students) }, m1)
      else
        let m2 := if !online then mcDecr m1 k else m1
        .ok ({ outStatus := some .waitlisted
               outTags := [ruleKey ++ k]
               outRemaining := some (max_people - num_students) }, m2)
  else
    match RuleGet ctx0 online predict k NUM_RETRIES m with
    | .error e => .error e
    | .ok (g, m1) =>
      let resources_used := match g with | none => max_people | some v => v
      .ok ({ outStatus := target
             outTags := [ruleKey ++ k]
             outRemaining := some (max_people - resources_used) }, m1)

/-- `rules_impl._UpdateQueryMode` as the predicate the added datastore query
filters impose: offline restricts to ENROLLED, PROCESSED rows; online adds
nothing. -/
def UpdateQueryModeFilter (offline : Bool) (reg : UserRegistration) : Bool :=
  if offline then
    reg.status == some .enrolled && reg.confirmed == .processed
  else true

/-- `rules_impl._RegistrationNeedsAccounting`. -/
def RegistrationNeedsAccounting (reg : UserRegistration) (offline : Bool) : Bool :=
  if offline then
    reg.status == some .enrolled && reg.confirmed == .processed
  else
    (reg.active == .active) ||
    (reg.status == some .enrolled && reg.confirmed == .not_ready) ||
    (reg.status == some .unregistered && reg.confirmed == .ready)

/-- `MaxNumberRegisteredByActivity._BuildContext`: the number of students a
counter rebuild derives from the datastore for an activity — the activity
query, the `_UpdateQueryMode` filters, then `_RegistrationNeedsAccounting`
per row. -/
def BuildContextActivity (store : Store) (act : Nat) (offline : Bool) : Nat :=
  let query := store.filter (fun r => r.regActivity == act)
  let query :=
    if offline then
      (query.filter (fun r => r.status == some .enrolled)).filter
        (fun r => r.confirmed == .processed)
    else query
  query.countP (fun r => RegistrationNeedsAccounting r offline)

/-- Concrete evaluation outcome of a rule-free context, used to instantiate
universally quantified theorems on a checkable input. -/
def sampleEvalResult : EvalResult :=
  { final_status := some .enrolled
    all_rule_results := []
    all_rule_configs := []
    all_rule_resources_remaining := []
    all_rule_tags := {0, 1}
    affecting_rule_tags := {0, 1}
    affecting_rule_configs := ∅ }

/-- A concrete config whose first rule verdict hits the early-exit stop
status for initial status None, followed by a second rule. -/
def sampleForceConfigs : List RuleConfigE :=
  [⟨2, [⟨true, none, [4], 0⟩, ⟨true, some .waitlisted, [5], 1⟩]⟩]

/-- The evaluation outcome of `sampleForceConfigs` under a forced status. -/
def sampleForceResult : EvalResult :=
  { final_status := some .enrolled
    all_rule_results := [(2, none), (2, some .waitlisted)]
    all_rule_configs := [2, 2]
    all_rule_resources_remaining := [0, 1]
    all_rule_tags := {4, 5, 0, 1}
    affecting_rule_tags := {4, 5, 0, 1}
    affecting_rule_configs := {2} }

/-- A concrete evaluation context (user 0, activity 1, no force, engine tags
10 and 11, no rules) used to instantiate store-level theorems. -/
def sampleCtx : EvalContextE :=
  { ctxUser := 0, ctxActivity := 1, force_status := false,
    programTag := 10, activityTag := 11, configs := [] }

/-- A concrete enroll row awaiting offline confirmation
(`confirmed = READY`, not yet PROCESSED). -/
def sampleParentReg : UserRegistration :=
  { regId := 1, regUser := 0, regActivity := 1,
    status := some .enrolled, confirmed := .ready, active := .inactive,
    rule_tags := ∅, affecting_rule_tags := ∅, affecting_rule_configs := ∅,
    parentReg := none, online_unregistered := false, force_status := false }

/-- A concrete unregister row parented to `sampleParentReg`. -/
def sampleUnregReg : UserRegistration :=
  { regId := 2, regUser := 0, regActivity := 1,
    status := some .unregistered, confirmed := .ready, active := .inactive,
    rule_tags := ∅, affecting_rule_tags := ∅, affecting_rule_configs := ∅,
    parentReg := some 1, online_unregistered := false, force_status := false }

/-- The rule-free offline evaluation outcome for the unregistration of
`sampleUnregReg` under `sampleCtx`. -/
def sampleOfflineResult : EvalResult :=
  { final_status := some .unregistered
    all_rule_results := []
    all_rule_configs := []
    all_rule_resources_remaining := []
    all_rule_tags := {10, 11}
    affecting_rule_tags := {10, 11}
    affecting_rule_configs := ∅ }

/-! Helper lemmas about the orchestrator loops. -/

theorem evaluateConfigRules_valid (initial : Status) (stop : List Status)
    (force : Bool) (cfgId : Nat) (rules : List RuleOutcome) :
    ∀ rs b, EvaluateConfigRules initial stop force cfgId rules = .ok (rs, b) →
      ∀ r ∈ rs, IsValidTransition initial r.resStatus = true := by
  induction rules with
  | nil =>
    intro rs b h r hr
    simp only [EvaluateConfigRules, Except.ok.injEq, Prod.mk.injEq] at h
    rw [← h.1] at hr
    simp at hr
  | cons rule rest ih =>
    intro rs b h r hr
    simp only [EvaluateConfigRules] at h
    by_cases hreg : rule.isRegisterRule = true
    · rw [if_pos hreg] at h
      by_cases hval : IsValidTransition initial rule.ruleStatus = true
      · rw [if_pos hval] at h
        by_cases hstop : (stop.contains rule.ruleStatus && !force) = true
        · rw [if_pos hstop] at h
          simp only [Except.ok.injEq, Prod.mk.injEq] at h
          rw [← h.1] at hr
          rcases List.mem_singleton.mp hr with rfl
          exact hval
        · rw [if_neg hstop] at h
          rcases hrec : EvaluateConfigRules initial stop force cfgId rest with e | p
          · rw [hrec] at h; exact absurd h (by simp)
          · rcases p with ⟨rs', b'⟩
            rw [hrec] at h
            simp only [Except.ok.injEq, Prod.mk.injEq] at h
            rw [← h.1] at hr
            rcases List.mem_cons.mp hr with rfl | hr'
            · exact hval
            · exact ih rs' b' hrec r hr'
      · rw [if_neg hval] at h
        exact absurd h (by simp)
    · rw [if_neg hreg] at h
      exact ih rs b h r hr

theorem evaluateAllRules_valid (initial : Status) (stop : List Status)
    (force : Bool) (configs : List RuleConfigE) :
    ∀ rs, EvaluateAllRules initial stop force configs = .ok rs →
      ∀ r ∈ rs, IsValidTransition initial r.resStatus = true := by
  induction configs with
  | nil =>
    intro rs h r hr
    simp only [EvaluateAllRules, Except.ok.injEq] at h
    rw [← h] at hr
    simp at hr
  | cons c rest ih =>
    intro rs h r hr
    simp only [EvaluateAllRules] at h
    rcases hc : EvaluateConfigRules initial stop force c.cfgId c.createdRules with e | p
    · rw [hc] at h; exact absurd h (by simp)
    · rcases p with ⟨rs1, brk⟩
      simp only [hc] at h
      by_cases hb : brk = true
      · rw [if_pos hb] at h
        simp only [Except.ok.injEq] at h
        rw [← h] at hr
        exact evaluateConfigRules_valid initial stop force c.cfgId c.createdRules rs1 brk hc r hr
      · rw [if_neg hb] at h
        rcases hrest : EvaluateAllRules initial stop force rest with e | rs2
        · rw [hrest] at h; exact absurd h (by simp)
        · simp only [hrest, Except.ok.injEq] at h
          rw [← h] at hr
          rcases List.mem_append.mp hr with h1 | h2
          · exact evaluateConfigRules_valid initial stop force c.cfgId c.createdRules rs1 brk hc r h1
          · exact ih rs2 hrest r h2

theorem evaluateConfigRules_ok (initial : Status) (stop : List Status)
    (force : Bool) (cfgId : Nat) (rules : List RuleOutcome)
    (hrules : ∀ r ∈ rules, r.isRegisterRule = true →
        IsValidTransition initial r.ruleStatus = true) :
    ∃ rs b, EvaluateConfigRules initial stop force cfgId rules = .ok (rs, b) := by
  induction rules with
  | nil => exact ⟨[], false, rfl⟩
  | cons rule rest ih =>
    have hrest : ∀ r ∈ rest, r.isRegisterRule = true →
        IsValidTransition initial r.ruleStatus = true :=
      fun r hr => hrules r (List.mem_cons_of_mem rule hr)
    rcases ih hrest with ⟨rs, b, hok⟩
    by_cases hreg : rule.isRegisterRule = true
    · have hval := hrules rule (List.mem_cons_self rule rest) hreg
      by_cases hstop : (stop.contains rule.ruleStatus && !force) = true
      · exact ⟨[⟨cfgId, rule.ruleStatus, rule.ruleTags, rule.resourceRemaining⟩], true, by
          simp only [EvaluateConfigRules]
          rw [if_pos hreg, if_pos hval, if_pos hstop]⟩
      · exact ⟨⟨cfgId, rule.ruleStatus, rule.ruleTags, rule.resourceRemaining⟩ :: rs, b, by
          simp only [EvaluateConfigRules]
          rw [if_pos hreg, if_pos hval, if_neg hstop, hok]⟩
    · exact ⟨rs, b, by
        simp only [EvaluateConfigRules]
        rw [if_neg hreg]
        exact hok⟩

theorem evaluateAllRules_ok (initial : Status) (stop : List Status)
    (force : Bool) (configs : List RuleConfigE)
    (hconfigs : ∀ c ∈ configs, ∀ r ∈ c.createdRules, r.isRegisterRule = true →
        IsValidTransition initial r.ruleStatus = true) :
    ∃ rs, EvaluateAllRules initial stop force configs = .ok rs := by
  induction configs with
  | nil => exact ⟨[], rfl⟩
  | cons c rest ih =>
    rcases ih (fun c' hc' => hconfigs c' (List.mem_cons_of_mem c hc')) with ⟨rs2, hok2⟩
    rcases evaluateConfigRules_ok initial stop force c.cfgId c.createdRules
        (hconfigs c (List.mem_cons_self c rest)) with ⟨rs1, b, hok1⟩
    by_cases hb : b = true
    · exact ⟨rs1, by simp [EvaluateAllRules, hok1, hb]⟩
    · exact ⟨rs1 ++ rs2, by simp [EvaluateAllRules, hok1, hok2, hb]⟩

theorem maxStatusFold_mem (initial : Status) (rest : List Status) :
    ∀ s0, maxStatusFold initial s0 rest ∈ s0 :: rest := by
  induction rest with
  | nil => intro s0; simp [maxStatusFold]
  | cons t rest ih =>
    intro s0
    have hstep : maxStatusFold initial s0 (t :: rest) =
        maxStatusFold initial
          (if statusPriority initial s0 < statusPriority initial t then t else s0)
          rest := rfl
    rw [hstep]
    by_cases hlt : statusPriority initial s0 < statusPriority initial t
    · rw [if_pos hlt]
      have := ih t
      simp only [List.mem_cons] at this ⊢
      tauto
    · rw [if_neg hlt]
      have := ih s0
      simp only [List.mem_cons] at this ⊢
      tauto

theorem maxStatusFold_le (initial : Status) (rest : List Status) :
    ∀ s0 s, s ∈ s0 :: rest →
      statusPriority initial s ≤ statusPriority initial (maxStatusFold initial s0 rest) := by
  induction rest with
  | nil =>
    intro s0 s hs
    rcases List.mem_singleton.mp hs with rfl
    simp [maxStatusFold]
  | cons t rest ih =>
    intro s0 s hs
    have hstep : maxStatusFold initial s0 (t :: rest) =
        maxStatusFold initial
          (if statusPriority initial s0 < statusPriority initial t then t else s0)
          rest := rfl
    rw [hstep]
    set acc := if statusPriority initial s0 < statusPriority initial t then t else s0 with hacc
    have hs0 : statusPriority initial s0 ≤ statusPriority initial acc := by
      rw [hacc]; split <;> omega
    have ht : statusPriority initial t ≤ statusPriority initial acc := by
      rw [hacc]; split <;> omega
    have hfold : statusPriority initial acc ≤
        statusPriority initial (maxStatusFold initial acc rest) :=
      ih acc acc (List.mem_cons_self acc rest)
    rcases List.mem_cons.mp hs with rfl | hs'
    · omega
    · rcases List.mem_cons.mp hs' with rfl | hs''
      · omega
      · exact ih acc s (List.mem_cons_of_mem acc hs'')

theorem evaluateConfigRules_force (initial : Status) (stop : List Status)
    (cfgId : Nat) (rules : List RuleOutcome) :
    ∀ rs b, EvaluateConfigRules initial stop true cfgId rules = .ok (rs, b) →
      b = false ∧ rs.length = rules.countP (fun r => r.isRegisterRule) := by
  induction rules with
  | nil =>
    intro rs b h
    simp only [EvaluateConfigRules, Except.ok.injEq, Prod.mk.injEq] at h
    rw [← h.1, ← h.2]
    simp
  | cons rule rest ih =>
    intro rs b h
    simp only [EvaluateConfigRules] at h
    by_cases hreg : rule.isRegisterRule = true
    · rw [if_pos hreg] at h
      by_cases hval : IsValidTransition initial rule.ruleStatus = true
      · rw [if_pos hval] at h
        simp only [Bool.not_true, Bool.and_false, Bool.false_eq_true, if_false] at h
        rcases hrec : EvaluateConfigRules initial stop true cfgId rest with e | p
        · rw [hrec] at h; exact absurd h (by simp)
        · rcases p with ⟨rs', b'⟩
          simp only [hrec, Except.ok.injEq, Prod.mk.injEq] at h
          rcases ih rs' b' hrec with ⟨hb', hlen⟩
          constructor
          · rw [← h.2]; exact hb'
          · rw [← h.1]
            simp [List.countP_cons, hreg, hlen]
      · rw [if_neg hval] at h
        exact absurd h (by simp)
    · rw [if_neg hreg] at h
      rcases ih rs b h with ⟨hb, hlen⟩
      refine ⟨hb, ?_⟩
      rw [hlen]
      simp [List.countP_cons, hreg]

theorem evaluateAllRules_force (initial : Status) (stop : List Status)
    (configs : List RuleConfigE) :
    ∀ rs, EvaluateAllRules initial stop true configs = .ok rs →
      rs.length =
        (configs.map (fun c => c.createdRules.countP (fun r => r.isRegisterRule))).sum := by
  induction configs with
  | nil =>
    intro rs h
    simp only [EvaluateAllRules, Except.ok.injEq] at h
    rw [← h]
    simp
  | cons c rest ih =>
    intro rs h
    simp only [EvaluateAllRules] at h
    rcases hc : EvaluateConfigRules initial stop true c.cfgId c.createdRules with e | p
    · rw [hc] at h; exact absurd h (by simp)
    · rcases p with ⟨rs1, brk⟩
      simp only [hc] at h
      rcases evaluateConfigRules_force initial stop c.cfgId c.createdRules rs1 brk hc with
        ⟨hbrk, hlen1⟩
      simp only [hbrk, Bool.false_eq_true, if_false] at h
      rcases hrest : EvaluateAllRules initial stop true rest with e | rs2
      · rw [hrest] at h; exact absurd h (by simp)
      · simp only [hrest, Except.ok.injEq] at h
        rw [← h]
        simp [List.length_append, hlen1, ih rs2 hrest]

theorem countP_congr_on {α : Type} (p q : α → Bool) :
    ∀ l : List α, (∀ x ∈ l, p x = q x) → l.countP p = l.countP q := by
  intro l
  induction l with
  | nil => intro _; rfl
  | cons x l ih =>
    intro h
    rw [List.countP_cons, List.countP_cons, h x (List.mem_cons_self x l),
      ih (fun y hy => h y (List.mem_cons_of_mem x hy))]

theorem map_id_on {α : Type} (f : α → α) :
    ∀ l : List α, (∀ x ∈ l, f x = x) → l.map f = l := by
  intro l
  induction l with
  | nil => intro _; rfl
  | cons x l ih =>
    intro h
    rw [List.map_cons, h x (List.mem_cons_self x l),
      ih (fun y hy => h y (List.mem_cons_of_mem x hy))]

theorem head?_length_le_one {α : Type} (l : List α) (x : α)
    (h : l.head? = some x) (hlen : l.length ≤ 1) : l = [x] := by
  cases l with
  | nil => simp at h
  | cons a t =>
    simp only [List.head?_cons, Option.some.injEq] at h
    cases t with
    | nil => rw [h]
    | cons b u => simp at hlen

theorem rulesEvaluate_invalid (force : Bool) (pT aT : Nat)
    (initial target : Status) (configs : List RuleConfigE)
    (hval : IsValidTransition initial target = false) :
    RulesEvaluate force pT aT initial target configs =
      .error (.badStateTransition initial target) := by
  simp [RulesEvaluate, hval]

theorem rulesEvaluate_ok_exists (force : Bool) (pT aT : Nat)
    (initial target : Status) (configs : List RuleConfigE)
    (hval : IsValidTransition initial target = true)
    (hrules : ∀ c ∈ configs, ∀ r ∈ c.createdRules, r.isRegisterRule = true →
        IsValidTransition initial r.ruleStatus = true) :
    ∃ res, RulesEvaluate force pT aT initial target configs = .ok res := by
  rcases evaluateAllRules_ok initial (statusStop initial) force configs hrules with
    ⟨rs, hok⟩
  simp only [RulesEvaluate, hval, if_true, hok]
  cases force <;> simp

theorem rulesEvaluate_final_valid (force : Bool) (pT aT : Nat)
    (initial target : Status) (configs : List RuleConfigE) (res : EvalResult)
    (h : RulesEvaluate force pT aT initial target configs = .ok res) :
    IsValidTransition initial res.final_status = true := by
  by_cases hval : IsValidTransition initial target = true
  · rcases hok : EvaluateAllRules initial (statusStop initial) force configs with e | rs
    · simp [RulesEvaluate, hval, hok] at h
    · simp only [RulesEvaluate, hval, if_true, hok] at h
      have hvalid := evaluateAllRules_valid initial (statusStop initial) force configs rs hok
      cases force with
      | true =>
        simp only [if_true] at h
        injection h with h
        rw [← h]
        exact hval
      | false =>
        simp only [Bool.false_eq_true, if_false] at h
        injection h with h
        rw [← h]
        cases rs with
        | nil => exact hval
        | cons r rest =>
          show IsValidTransition initial
            (maxStatusFold initial r.resStatus (rest.map RuleRes.resStatus)) = true
          have hmem := maxStatusFold_mem initial (rest.map RuleRes.resStatus) r.resStatus
          rw [← List.map_cons] at hmem
          rcases List.mem_map.mp hmem with ⟨rr, hrr, hrr2⟩
          rw [← hrr2]
          exact hvalid rr hrr
  · rw [rulesEvaluate_invalid force pT aT initial target configs
      (by simpa using hval)] at h
    exact absurd h (by simp)

/-- C2: `_RulesEvaluate` raises `BadStateTransition` exactly when the
requested `(initial, target)` pair is not a legal edge of the registration
state machine as the claim tabulates it, and for every legal pair any
returned final status is again one of the initial status' allowed targets.
(The only-if direction of the raise is stated for rule sets whose verdicts
are themselves legal; an illegal individual verdict also raises, which is
claim C8's subject.) -/
theorem C2_transition_table_guard (force : Bool) (pT aT : Nat)
    (initial target : Status) (configs : List RuleConfigE)
    (hrules : ∀ c ∈ configs, ∀ r ∈ c.createdRules, r.isRegisterRule = true →
        IsValidTransition initial r.ruleStatus = true) :
    (∀ i t, IsValidTransition i t = ClaimLegalEdge i t) ∧
    (evalSucceeds (RulesEvaluate force pT aT initial target configs) = false ↔
      IsValidTransition initial target = false) ∧
    (∀ res, RulesEvaluate force pT aT initial target configs = .ok res →
      IsValidTransition initial res.final_status = true) := by
  refine ⟨by decide, ⟨?_, ?_⟩, ?_⟩
  · intro hfail
    by_contra hval
    simp only [Bool.not_eq_false] at hval
    rcases rulesEvaluate_ok_exists force pT aT initial target configs hval hrules with
      ⟨res, hok⟩
    rw [hok] at hfail
    simp [evalSucceeds] at hfail
  · intro hval
    rw [rulesEvaluate_invalid force pT aT initial target configs hval]
    simp [evalSucceeds]
  · intro res h
    exact rulesEvaluate_final_valid force pT aT initial target configs res h

/-- C2 witness: on a rule-free context, the transition None to ENROLLED is
legal, evaluation succeeds, and the returned final status is legal. -/
theorem C2_witness :
    (∀ i t, IsValidTransition i t = ClaimLegalEdge i t) ∧
    (evalSucceeds (RulesEvaluate false 0 1 none (some RegStatus.enrolled) []) = false ↔
      IsValidTransition none (some RegStatus.enrolled) = false) ∧
    (∀ res, RulesEvaluate false 0 1 none (some RegStatus.enrolled) [] = .ok res →
      IsValidTransition none res.final_status = true) :=
  C2_transition_table_guard false 0 1 none (some RegStatus.enrolled) [] (by simp)

/-- C4: with `force_status` false, the final status `_RulesEvaluate` returns
is the evaluated verdict of highest priority (position in the precedence
order of the transition table for the initial status) among all rules that
were evaluated, and the requested target status when no rule was
evaluated. -/
theorem C4_final_status_highest_priority (pT aT : Nat) (initial target : Status)
    (configs : List RuleConfigE) (res : EvalResult)
    (h : RulesEvaluate false pT aT initial target configs = .ok res) :
    (res.all_rule_results = [] → res.final_status = target) ∧
    (res.all_rule_results ≠ [] →
      (∃ pr ∈ res.all_rule_results, pr.2 = res.final_status) ∧
      ∀ pr ∈ res.all_rule_results,
        statusPriority initial pr.2 ≤ statusPriority initial res.final_status) := by
  by_cases hval : IsValidTransition initial target = true
  · rcases hok : EvaluateAllRules initial (statusStop initial) false configs with e | rs
    · simp [RulesEvaluate, hval, hok] at h
    · simp only [RulesEvaluate, hval, if_true, hok, Bool.false_eq_true, if_false] at h
      injection h with h
      rw [← h]
      cases rs with
      | nil => simp
      | cons r rest =>
        constructor
        · intro hnil
          simp at hnil
        · intro _
          constructor
          · have hmem := maxStatusFold_mem initial (rest.map RuleRes.resStatus) r.resStatus
            rw [← List.map_cons] at hmem
            rcases List.mem_map.mp hmem with ⟨rr, hrr, hrr2⟩
            refine ⟨(rr.resCfg, rr.resStatus), ?_, ?_⟩
            · show (rr.resCfg, rr.resStatus) ∈
                (r :: rest).map (fun r => (r.resCfg, r.resStatus))
              exact List.mem_map.mpr ⟨rr, hrr, rfl⟩
            · exact hrr2
          · intro pr hpr
            have hpr' : pr ∈ (r :: rest).map (fun r => (r.resCfg, r.resStatus)) := hpr
            rcases List.mem_map.mp hpr' with ⟨rr, hrr, hrr2⟩
            have hmem2 : rr.resStatus ∈ r.resStatus :: rest.map RuleRes.resStatus := by
              rw [← List.map_cons]
              exact List.mem_map.mpr ⟨rr, hrr, rfl⟩
            have := maxStatusFold_le initial (rest.map RuleRes.resStatus)
              r.resStatus rr.resStatus hmem2
            rw [← hrr2]
            exact this
  · rw [rulesEvaluate_invalid false pT aT initial target configs
      (by simpa using hval)] at h
    exact absurd h (by simp)

/-- C4 witness: a rule-free evaluation of None to ENROLLED returns the
target status. -/
theorem C4_witness :
    RulesEvaluate false 0 1 none (some RegStatus.enrolled) [] = .ok sampleEvalResult ∧
    (sampleEvalResult.all_rule_results = [] →
      sampleEvalResult.final_status = some RegStatus.enrolled) :=
  ⟨rfl,
   (C4_final_status_highest_priority 0 1 none (some RegStatus.enrolled) []
     sampleEvalResult rfl).1⟩

/-- C7: with `force_status` true, `_RulesEvaluate` forces the final status to
the requested target, reports every evaluated rule config as affecting and
the union of all collected tags as affecting tags, and a verdict equal to the
early-exit stop status does not stop evaluation: every register rule of every
config is evaluated. -/
theorem C7_force_status (pT aT : Nat) (initial target : Status)
    (configs : List RuleConfigE) (res : EvalResult)
    (h : RulesEvaluate true pT aT initial target configs = .ok res) :
    res.final_status = target ∧
    res.affecting_rule_configs = res.all_rule_configs.toFinset ∧
    res.affecting_rule_tags = res.all_rule_tags ∧
    res.all_rule_results.length =
      (configs.map (fun c => c.createdRules.countP (fun r => r.isRegisterRule))).sum := by
  by_cases hval : IsValidTransition initial target = true
  · rcases hok : EvaluateAllRules initial (statusStop initial) true configs with e | rs
    · simp [RulesEvaluate, hval, hok] at h
    · simp only [RulesEvaluate, hval, if_true, hok] at h
      injection h with h
      rw [← h]
      refine ⟨rfl, rfl, rfl, ?_⟩
      show (rs.map (fun r => (r.resCfg, r.resStatus))).length = _
      rw [List.length_map]
      exact evaluateAllRules_force initial (statusStop initial) configs rs hok
  · rw [rulesEvaluate_invalid true pT aT initial target configs
      (by simpa using hval)] at h
    exact absurd h (by simp)

/-- C7 witness: under force, a stop-status verdict from the first rule does
not prevent the second rule from being evaluated, and the result is forced
to the target with all configs affecting. -/
theorem C7_witness :
    RulesEvaluate true 0 1 none (some RegStatus.enrolled) sampleForceConfigs =
        .ok sampleForceResult ∧
    (sampleForceResult.final_status = some RegStatus.enrolled ∧
     sampleForceResult.affecting_rule_configs =
       sampleForceResult.all_rule_configs.toFinset ∧
     sampleForceResult.affecting_rule_tags = sampleForceResult.all_rule_tags ∧
     sampleForceResult.all_rule_results.length =
       (sampleForceConfigs.map
         (fun c => c.createdRules.countP (fun r => r.isRegisterRule))).sum) :=
  ⟨rfl,
   C7_force_status 0 1 none (some RegStatus.enrolled) sampleForceConfigs
     sampleForceResult rfl⟩

/-- C8 counterexample: the claim says a None verdict is accepted as legal
when the initial status is UNREGISTERED, but the code raises
`BadStateTransition` there — a single rule answering None to the legal
request UNREGISTERED to ENROLLED makes `_RulesEvaluate` raise. -/
theorem C8_counterexample :
    RulesEvaluate false 0 1 (some RegStatus.unregistered) (some RegStatus.enrolled)
        [⟨5, [⟨true, none, [], 0⟩]⟩] =
      .error (.badStateTransition (some RegStatus.unregistered) none) := rfl

/-- C8 (amended): a rule verdict of None is accepted as legal by
`_RulesEvaluate` exactly when the initial status is None; for every other
initial status — including UNREGISTERED — a None verdict raises
`BadStateTransition`. -/
theorem C8_none_verdict_legal_iff (pT aT cfgId : Nat) (tags : List Nat)
    (rrem : Int) (initial target : Status)
    (hval : IsValidTransition initial target = true) :
    (IsValidTransition initial none = true ↔ initial = none) ∧
    (evalSucceeds (RulesEvaluate false pT aT initial target
        [⟨cfgId, [⟨true, none, tags, rrem⟩]⟩]) = true ↔ initial = none) := by
  constructor
  · cases initial with
    | none => decide
    | some s => cases s <;> decide
  · cases initial with
    | none =>
      have hrules : ∀ c ∈ [(⟨cfgId, [⟨true, (none : Status), tags, rrem⟩]⟩ : RuleConfigE)],
          ∀ r ∈ c.createdRules, r.isRegisterRule = true →
            IsValidTransition none r.ruleStatus = true := by
        intro c hc r hr _
        rcases List.mem_singleton.mp hc with rfl
        rcases List.mem_singleton.mp hr with rfl
        rfl
      rcases rulesEvaluate_ok_exists false pT aT none target
          [⟨cfgId, [⟨true, none, tags, rrem⟩]⟩] hval hrules with ⟨res, hok⟩
      simp [hok, evalSucceeds]
    | some s =>
      have hbad : IsValidTransition (some s) none = false := by cases s <;> decide
      have hcfg : EvaluateConfigRules (some s) (statusStop (some s)) false cfgId
          [⟨true, none, tags, rrem⟩] = .error (.badStateTransition (some s) none) := by
        simp [EvaluateConfigRules, hbad]
      have hall : EvaluateAllRules (some s) (statusStop (some s)) false
          [⟨cfgId, [⟨true, none, tags, rrem⟩]⟩] =
            .error (.badStateTransition (some s) none) := by
        simp [EvaluateAllRules, hcfg]
      have herr : RulesEvaluate false pT aT (some s) target
          [⟨cfgId, [⟨true, none, tags, rrem⟩]⟩] =
            .error (.badStateTransition (some s) none) := by
        simp [RulesEvaluate, hval, hall]
      simp [herr, evalSucceeds]

/-- C8 witness: instantiating the amended statement at initial status None
and target ENROLLED. -/
theorem C8_witness :
    IsValidTransition none (some RegStatus.enrolled) = true ∧
    ((IsValidTransition none none = true ↔ (none : Status) = none) ∧
     (evalSucceeds (RulesEvaluate false 0 1 none (some RegStatus.enrolled)
        [⟨0, [⟨true, none, [], 0⟩]⟩]) = true ↔ (none : Status) = none)) :=
  ⟨by decide, C8_none_verdict_legal_iff 0 1 0 [] 0 none (some RegStatus.enrolled)
    (by decide)⟩

/-- C10: a resource-counter rebuild counts a registration row, in offline
mode, exactly when `status = ENROLLED` and `confirmed = PROCESSED`; in online
mode, exactly when it is `active = ACTIVE`, or `status = ENROLLED` with
`confirmed = NOT_READY` (an in-flight provisional hold), or
`status = UNREGISTERED` with `confirmed = READY` (an unregistration not yet
reconciled offline). -/
theorem C10_rebuild_accounting (store : Store) (act : Nat) :
    (BuildContextActivity store act true = store.countP (fun r =>
      r.regActivity == act && (r.status == some RegStatus.enrolled &&
        r.confirmed == RegistrationConfirm.processed))) ∧
    (BuildContextActivity store act false = store.countP (fun r =>
      r.regActivity == act && ((r.active == RegistrationActive.active) ||
        (r.status == some RegStatus.enrolled &&
          r.confirmed == RegistrationConfirm.not_ready) ||
        (r.status == some RegStatus.unregistered &&
          r.confirmed == RegistrationConfirm.ready)))) := by
  constructor
  · show (((store.filter (fun r => r.regActivity == act)).filter
        (fun r => r.status == some RegStatus.enrolled)).filter
        (fun r => r.confirmed == RegistrationConfirm.processed)).countP
        (fun r => RegistrationNeedsAccounting r true) = _
    rw [List.countP_filter, List.countP_filter, List.countP_filter]
    apply countP_congr_on
    intro r _
    rw [Bool.eq_iff_iff]
    simp only [RegistrationNeedsAccounting, if_true, Bool.and_eq_true,
      Bool.or_eq_true, beq_iff_eq]
    tauto
  · show ((store.filter (fun r => r.regActivity == act)).countP
        (fun r => RegistrationNeedsAccounting r false)) = _
    rw [List.countP_filter]
    apply countP_congr_on
    intro r _
    rw [Bool.eq_iff_iff]
    simp only [RegistrationNeedsAccounting, Bool.false_eq_true, if_false,
      Bool.and_eq_true, Bool.or_eq_true, beq_iff_eq]
    tauto

theorem ruleIncr_hit (ctx0 : List (String × Int)) (online : Bool)
    (retries : Nat) (c : Int) (initK : Option (List String)) :
    RuleIncr ctx0 online false "_" retries ⟨true, [("_", c)], initK⟩ =
      .ok (c + 1, ⟨true, [("_", c + 1)], initK⟩) := by
  cases retries <;>
    simp [RuleIncr, mcIncr, mcLookup, mcStore, List.find?]

/-- C3: a `max_people` rule evaluated for target status ENROLLED accepts with
verdict ENROLLED exactly when the post-increment counter value n satisfies
n <= max_people, and answers WAITLISTED otherwise — in both cases with
`resource_remaining = max_people - n`; on a WAITLISTED verdict the counter is
decremented immediately only in offline mode and never in online mode.  In
particular the second of two registrants racing for a max_people = 1 slot
ends WAITLISTED with resource_remaining = -1. -/
theorem C3_max_people_rule (mp c : Int) (rk : String)
    (ctx0 : List (String × Int)) (online : Bool)
    (initK : Option (List String)) :
    (c + 1 ≤ mp →
      MaxEvaluate mp rk ctx0 online false "" none (some RegStatus.enrolled)
          ⟨true, [("_", c)], initK⟩ =
        .ok (⟨some RegStatus.enrolled, [rk ++ "_"], some (mp - (c + 1))⟩,
             ⟨true, [("_", c + 1)], initK⟩)) ∧
    (mp < c + 1 →
      MaxEvaluate mp rk ctx0 online false "" none (some RegStatus.enrolled)
          ⟨true, [("_", c)], initK⟩ =
        .ok (⟨some RegStatus.waitlisted, [rk ++ "_"], some (mp - (c + 1))⟩,
             ⟨true, [("_", if online then c + 1 else c)], initK⟩)) ∧
    (MaxEvaluate 1 rk ctx0 true false "" none (some RegStatus.enrolled)
        ⟨true, [("_", 0)], initK⟩ =
      .ok (⟨some RegStatus.enrolled, [rk ++ "_"], some 0⟩,
           ⟨true, [("_", 1)], initK⟩)) ∧
    (MaxEvaluate 1 rk ctx0 true false "" none (some RegStatus.enrolled)
        ⟨true, [("_", 1)], initK⟩ =
      .ok (⟨some RegStatus.waitlisted, [rk ++ "_"], some (-1)⟩,
           ⟨true, [("_", 2)], initK⟩)) := by
  refine ⟨?_, ?_, ?_, ?_⟩
  · intro hle
    simp only [MaxEvaluate, eq_self_iff_true, if_true, NUM_RETRIES, ruleIncr_hit]
    rw [if_pos hle]
  · intro hgt
    have hle : ¬ (c + 1 ≤ mp) := by omega
    simp only [MaxEvaluate, eq_self_iff_true, if_true, NUM_RETRIES, ruleIncr_hit]
    rw [if_neg hle]
    cases online with
    | true => simp
    | false =>
      simp [mcDecr, mcLookup, mcStore, List.find?]
  · simp only [MaxEvaluate, eq_self_iff_true, if_true, NUM_RETRIES, ruleIncr_hit]
    norm_num
  · simp only [MaxEvaluate, eq_self_iff_true, if_true, NUM_RETRIES, ruleIncr_hit]
    norm_num

/-- C3 witness: the first registrant on an empty max_people = 1 counter is
ENROLLED with resource_remaining 0. -/
theorem C3_witness :
    ((0 : Int) + 1 ≤ 1) ∧
    MaxEvaluate 1 "k" [] true false "" none (some RegStatus.enrolled)
        ⟨true, [("_", 0)], none⟩ =
      .ok (⟨some RegStatus.enrolled, ["k" ++ "_"], some (1 - ((0 : Int) + 1))⟩,
           ⟨true, [("_", (0 : Int) + 1)], none⟩) :=
  ⟨by norm_num, (C3_max_people_rule 1 0 "k" [] true none).1 (by norm_num)⟩

/-- C9: when the cache tier is unusable (every memcache primitive fails) and
the retry bound is exhausted, `_Incr` raises `errors.AppengineError` instead
of returning None — so a max_people rule evaluated online for target ENROLLED
propagates the error rather than degrading to the WAITLISTED verdict its own
dead `num_students is None` branch was written for; offline it errors as
well. -/
theorem C9_incr_exhaustion_raises :
    (MaxEvaluate 1 "k" [("_", 1)] true false "" none (some RegStatus.enrolled)
        ⟨false, [], none⟩ = .error .appengineError) ∧
    (MaxEvaluate 1 "k" [("_", 1)] false false "" none (some RegStatus.enrolled)
        ⟨false, [], none⟩ = .error .appengineError) :=
  ⟨rfl, rfl⟩

/-! Helper lemmas about the registration store. -/

theorem countActive_eq_countP (store : Store) (u a : Nat) :
    countActive store u a = store.countP (isActiveFor u a) :=
  (List.countP_eq_length_filter _ _).symm

theorem getActive_none_iff (store : Store) (u a : Nat) :
    GetActiveUserRegistration store u a = none ↔
      store.countP (isActiveFor u a) = 0 := by
  unfold GetActiveUserRegistration ActiveQuery
  rw [List.head?_eq_none_iff, List.countP_eq_length_filter, List.length_eq_zero]

theorem getActive_unique (store : Store) (u a : Nat) (ar : UserRegistration)
    (h : GetActiveUserRegistration store u a = some ar)
    (hinv : countActive store u a ≤ 1) :
    ∀ r ∈ store, isActiveFor u a r = true → r = ar := by
  intro r hr hp
  have hfilter : store.filter (isActiveFor u a) = [ar] :=
    head?_length_le_one (store.filter (isActiveFor u a)) ar h hinv
  have hmem : r ∈ store.filter (isActiveFor u a) := List.mem_filter.mpr ⟨hr, hp⟩
  rw [hfilter] at hmem
  exact List.mem_singleton.mp hmem

theorem countP_append_one {α : Type} (l : List α) (x : α) (p : α → Bool) :
    (l ++ [x]).countP p = l.countP p + (if p x then 1 else 0) := by
  rw [List.countP_append]
  simp [List.countP_cons]

theorem registerOnline_countActive (store : Store) (newId : Nat)
    (ctx : EvalContextE) (u a : Nat)
    (hfresh : ∀ r ∈ store, r.regId ≠ newId)
    (hinv : AtMostOneActive store) :
    countActive (RegisterOnlineUnsafe store newId ctx).2 u a ≤ 1 := by
  have hprov : isActiveFor u a (NewRegistrationEntry newId ctx) = false := by
    simp [isActiveFor, NewRegistrationEntry]
  rcases hga : GetActiveUserRegistration store ctx.ctxUser ctx.ctxActivity with _ | ar
  · rcases hev : RulesEvaluate ctx.force_status ctx.programTag ctx.activityTag
        none (some RegStatus.enrolled) ctx.configs with e | result
    · simp only [RegisterOnlineUnsafe, hga, hev]
      rw [countActive_eq_countP, countP_append_one, hprov]
      simp only [Bool.false_eq_true, if_false, Nat.add_zero]
      rw [← countActive_eq_countP]
      exact hinv u a
    · by_cases hfin : result.final_status = none
      · simp only [RegisterOnlineUnsafe, hga, hev, hfin, eq_self_iff_true, if_true]
        rw [countActive_eq_countP, List.countP_filter]
        calc (store ++ [NewRegistrationEntry newId ctx]).countP
              (fun r => isActiveFor u a r && (r.regId != newId))
            ≤ (store ++ [NewRegistrationEntry newId ctx]).countP (isActiveFor u a) := by
              apply List.countP_mono_left
              intro x _ hx
              exact ((Bool.and_eq_true _ _).mp hx).1
          _ = store.countP (isActiveFor u a) := by
              rw [countP_append_one, hprov]
              simp
          _ ≤ 1 := by rw [← countActive_eq_countP]; exact hinv u a
      · simp only [RegisterOnlineUnsafe, hga, hev, hfin, if_false]
        rw [countActive_eq_countP, List.countP_map]
        rw [List.countP_append]
        have hstorepart : store.countP ((isActiveFor u a) ∘ (fun r =>
            if r.regId = newId then
              { r with status := result.final_status,
                       confirmed := RegistrationConfirm.ready,
                       active := RegistrationActive.active,
                       rule_tags := result.all_rule_tags,
                       affecting_rule_tags := result.affecting_rule_tags,
                       affecting_rule_configs := result.affecting_rule_configs }
            else r)) = store.countP (isActiveFor u a) := by
          apply countP_congr_on
          intro r hr
          simp [Function.comp, hfresh r hr]
        rw [hstorepart]
        by_cases hu : ctx.ctxUser = u ∧ ctx.ctxActivity = a
        · have hzero : store.countP (isActiveFor u a) = 0 := by
            rw [← hu.1, ← hu.2]
            exact (getActive_none_iff store ctx.ctxUser ctx.ctxActivity).mp hga
          rw [hzero, Nat.zero_add]
          exact le_trans (List.countP_le_length _) (by simp)
        · have hnew : ((isActiveFor u a) ∘ (fun r =>
              if r.regId = newId then
                { r with status := result.final_status,
                         confirmed := RegistrationConfirm.ready,
                         active := RegistrationActive.active,
                         rule_tags := result.all_rule_tags,
                         affecting_rule_tags := result.affecting_rule_tags,
                         affecting_rule_configs := result.affecting_rule_configs }
              else r)) (NewRegistrationEntry newId ctx) = false := by
            rcases not_and_or.mp hu with h | h <;>
              simp [Function.comp, NewRegistrationEntry, isActiveFor, beq_iff_eq, h]
          rw [List.countP_cons]
          simp only [List.countP_nil, hnew, Bool.false_eq_true, if_false,
            Nat.add_zero, Nat.zero_add]
          rw [← countActive_eq_countP]
          exact hinv u a
  · simp only [RegisterOnlineUnsafe, hga]
    by_cases hf : ctx.force_status = true
    · simp only [hf, Bool.not_true, Bool.false_eq_true, if_false]
      by_cases hst : ar.status = some RegStatus.enrolled
      · rw [if_pos hst]
        exact hinv u a
      · rw [if_neg hst]
        show countActive (store.map _) u a ≤ 1
        rw [countActive_eq_countP, List.countP_map]
        have : store.countP ((isActiveFor u a) ∘ (fun r =>
            if r.regId = ar.regId then
              { r with status := some RegStatus.enrolled,
                       confirmed := RegistrationConfirm.ready,
                       force_status := true }
            else r)) = store.countP (isActiveFor u a) := by
          apply countP_congr_on
          intro r _
          by_cases hid : r.regId = ar.regId <;> simp [Function.comp, hid, isActiveFor]
        rw [this, ← countActive_eq_countP]
        exact hinv u a
    · simp only [hf]
      have hf' : ctx.force_status = false := by
        cases hcf : ctx.force_status
        · rfl
        · exact absurd hcf hf
      simp only [hf', Bool.not_false, if_true]
      exact hinv u a

theorem unregisterOnline_countActive (store : Store) (newId : Nat)
    (ctx : EvalContextE) (u a : Nat)
    (hinv : AtMostOneActive store) :
    countActive (UnregisterOnlineUnsafe store newId ctx).2 u a ≤ 1 := by
  rcases hga : GetActiveUserRegistration store ctx.ctxUser ctx.ctxActivity with _ | ar
  · simp only [UnregisterOnlineUnsafe, hga]
    exact hinv u a
  · rcases hev : RulesEvaluate ctx.force_status ctx.programTag ctx.activityTag
        ar.status (some RegStatus.unregistered) ctx.configs with e | result
    · simp only [UnregisterOnlineUnsafe, hga, hev]
      exact hinv u a
    · by_cases hfin : result.final_status = some RegStatus.unregistered
      · simp only [UnregisterOnlineUnsafe, hga, hev, hfin, eq_self_iff_true, if_true]
        rw [countActive_eq_countP, countP_append_one, List.countP_map]
        have hnew : isActiveFor u a
            { regId := newId, regUser := ctx.ctxUser, regActivity := ctx.ctxActivity,
              status := some RegStatus.unregistered,
              confirmed := RegistrationConfirm.ready,
              active := RegistrationActive.inactive,
              rule_tags := result.all_rule_tags,
              affecting_rule_tags := result.affecting_rule_tags,
              affecting_rule_configs := result.affecting_rule_configs,
              parentReg := some ar.regId, online_unregistered := false,
              force_status := false } = false := by
          simp [isActiveFor]
        rw [hnew]
        simp only [Bool.false_eq_true, if_false, Nat.add_zero]
        calc store.countP ((isActiveFor u a) ∘ (fun r =>
              if r.regId = ar.regId then { r with active := RegistrationActive.inactive }
              else r))
            ≤ store.countP (isActiveFor u a) := by
              apply List.countP_mono_left
              intro r _ hp
              by_cases hid : r.regId = ar.regId
              · exfalso
                simp [Function.comp, hid, isActiveFor] at hp
              · simpa [Function.comp, hid] using hp
          _ ≤ 1 := by rw [← countActive_eq_countP]; exact hinv u a
      · simp only [UnregisterOnlineUnsafe, hga, hev, hfin, if_false]
        exact hinv u a

theorem registerOnline_activation_guard (store : Store) (newId : Nat)
    (ctx : EvalContextE)
    (hfresh : ∀ r ∈ store, r.regId ≠ newId) :
    ∀ r ∈ (RegisterOnlineUnsafe store newId ctx).2, r.regId = newId →
      r.active = RegistrationActive.active →
      GetActiveUserRegistration store ctx.ctxUser ctx.ctxActivity = none := by
  intro r hr hid hact
  rcases hga : GetActiveUserRegistration store ctx.ctxUser ctx.ctxActivity with _ | ar
  · rfl
  · exfalso
    rw [RegisterOnlineUnsafe] at hr
    rw [hga] at hr
    by_cases hf : ctx.force_status = true
    · simp only [hf, Bool.not_true, Bool.false_eq_true, if_false] at hr
      by_cases hst : ar.status = some RegStatus.enrolled
      · rw [if_pos hst] at hr
        exact hfresh r hr hid
      · rw [if_neg hst] at hr
        simp only at hr
        rcases List.mem_map.mp hr with ⟨r', hr', heq⟩
        have : r.regId = r'.regId := by
          rw [← heq]
          by_cases h2 : r'.regId = ar.regId <;> simp [h2]
        exact hfresh r' hr' (by rw [← this, hid])
    · have hf' : ctx.force_status = false := by
        cases hcf : ctx.force_status
        · rfl
        · exact absurd hcf hf
      simp only [hf', Bool.not_false, if_true] at hr
      exact hfresh r hr hid

theorem unregisterOnline_flip (store : Store) (newId : Nat)
    (ctx : EvalContextE)
    (hfresh : ∀ r ∈ store, r.regId ≠ newId)
    (hinv : AtMostOneActive store) :
    ∀ r ∈ (UnregisterOnlineUnsafe store newId ctx).2, r.regId = newId →
      r.active = RegistrationActive.inactive ∧
      countActive (UnregisterOnlineUnsafe store newId ctx).2
        ctx.ctxUser ctx.ctxActivity = 0 := by
  intro r hr hid
  rcases hga : GetActiveUserRegistration store ctx.ctxUser ctx.ctxActivity with _ | ar
  · rw [UnregisterOnlineUnsafe] at hr
    rw [hga] at hr
    simp only at hr
    exact absurd hid (hfresh r hr)
  · rcases hev : RulesEvaluate ctx.force_status ctx.programTag ctx.activityTag
        ar.status (some RegStatus.unregistered) ctx.configs with e | result
    · rw [UnregisterOnlineUnsafe] at hr
      rw [hga] at hr
      simp only [hev] at hr
      exact absurd hid (hfresh r hr)
    · by_cases hfin : result.final_status = some RegStatus.unregistered
      case neg =>
        rw [UnregisterOnlineUnsafe] at hr
        rw [hga] at hr
        simp only [hev, hfin, if_false] at hr
        exact absurd hid (hfresh r hr)
      case pos =>
      have hpost : (UnregisterOnlineUnsafe store newId ctx).2 =
          (store.map (fun x =>
            if x.regId = ar.regId then { x with active := RegistrationActive.inactive }
            else x)) ++
          [{ regId := newId, regUser := ctx.ctxUser, regActivity := ctx.ctxActivity,
             status := some RegStatus.unregistered,
             confirmed := RegistrationConfirm.ready,
             active := RegistrationActive.inactive,
             rule_tags := result.all_rule_tags,
             affecting_rule_tags := result.affecting_rule_tags,
             affecting_rule_configs := result.affecting_rule_configs,
             parentReg := some ar.regId, online_unregistered := false,
             force_status := false }] := by
        simp only [UnregisterOnlineUnsafe, hga, hev, hfin, eq_self_iff_true, if_true]
      rw [hpost] at hr
      constructor
      · rcases List.mem_append.mp hr with hmem | hmem
        · exfalso
          rcases List.mem_map.mp hmem with ⟨r', hr', heq⟩
          have : r.regId = r'.regId := by
            rw [← heq]
            by_cases h2 : r'.regId = ar.regId <;> simp [h2]
          exact hfresh r' hr' (by rw [← this, hid])
        · rw [List.mem_singleton.mp hmem]
      · rw [hpost, countActive_eq_countP, countP_append_one, List.countP_map]
        have hnew : isActiveFor ctx.ctxUser ctx.ctxActivity
            { regId := newId, regUser := ctx.ctxUser, regActivity := ctx.ctxActivity,
              status := some RegStatus.unregistered,
              confirmed := RegistrationConfirm.ready,
              active := RegistrationActive.inactive,
              rule_tags := result.all_rule_tags,
              affecting_rule_tags := result.affecting_rule_tags,
              affecting_rule_configs := result.affecting_rule_configs,
              parentReg := some ar.regId, online_unregistered := false,
              force_status := false } = false := by
          simp [isActiveFor]
        rw [hnew]
        simp only [Bool.false_eq_true, if_false, Nat.add_zero]
        rw [List.countP_eq_zero]
        intro x hx hpx
        by_cases hxid : x.regId = ar.regId
        · simp [Function.comp, hxid, isActiveFor] at hpx
        · have hpx' : isActiveFor ctx.ctxUser ctx.ctxActivity x = true := by
            simpa [Function.comp, hxid] using hpx
          have := getActive_unique store ctx.ctxUser ctx.ctxActivity ar hga
            (hinv ctx.ctxUser ctx.ctxActivity) x hx hpx'
          rw [this] at hxid
          exact hxid rfl

/-- C1: both online operations preserve the at-most-one-ACTIVE-registration
invariant per (registrant, activity): `_RegisterOnlineUnsafe` activates the
entry it created (which starts INACTIVE) only when no ACTIVE registration
existed for the pair, and `_UnregisterOnlineUnsafe` creates its new entry
INACTIVE and flips the previously ACTIVE entry to INACTIVE, leaving no
ACTIVE row for the pair. -/
theorem C1_at_most_one_active (store : Store) (newId : Nat) (ctx : EvalContextE)
    (hfresh : ∀ r ∈ store, r.regId ≠ newId)
    (hinv : AtMostOneActive store) :
    AtMostOneActive (RegisterOnlineUnsafe store newId ctx).2 ∧
    AtMostOneActive (UnregisterOnlineUnsafe store newId ctx).2 ∧
    (∀ r ∈ (RegisterOnlineUnsafe store newId ctx).2, r.regId = newId →
      r.active = RegistrationActive.active →
      GetActiveUserRegistration store ctx.ctxUser ctx.ctxActivity = none) ∧
    (∀ r ∈ (UnregisterOnlineUnsafe store newId ctx).2, r.regId = newId →
      r.active = RegistrationActive.inactive ∧
      countActive (UnregisterOnlineUnsafe store newId ctx).2
        ctx.ctxUser ctx.ctxActivity = 0) :=
  ⟨fun u a => registerOnline_countActive store newId ctx u a hfresh hinv,
   fun u a => unregisterOnline_countActive store newId ctx u a hinv,
   registerOnline_activation_guard store newId ctx hfresh,
   unregisterOnline_flip store newId ctx hfresh hinv⟩

/-- C1 witness: on the empty store with a fresh id, both operations keep the
invariant. -/
theorem C1_witness :
    AtMostOneActive (RegisterOnlineUnsafe [] 7 sampleCtx).2 ∧
    AtMostOneActive (UnregisterOnlineUnsafe [] 7 sampleCtx).2 ∧
    (∀ r ∈ (RegisterOnlineUnsafe [] 7 sampleCtx).2, r.regId = 7 →
      r.active = RegistrationActive.active →
      GetActiveUserRegistration [] sampleCtx.ctxUser sampleCtx.ctxActivity = none) ∧
    (∀ r ∈ (UnregisterOnlineUnsafe [] 7 sampleCtx).2, r.regId = 7 →
      r.active = RegistrationActive.inactive ∧
      countActive (UnregisterOnlineUnsafe [] 7 sampleCtx).2
        sampleCtx.ctxUser sampleCtx.ctxActivity = 0) :=
  C1_at_most_one_active [] 7 sampleCtx (by simp) (fun _ _ => Nat.zero_le 1)

/-- C5: when no ACTIVE registration exists for the pair, the provisional
entry `_RegisterOnlineUnsafe` writes before rule evaluation carries
`status = ENROLLED`, `confirmed = NOT_READY`, `active = INACTIVE`; when the
collective final status is None the provisional entry is deleted (the store
is exactly as before the attempt) and the denial is returned with the
affecting-config reasons; otherwise the same entry is updated to
`confirmed = READY`, `active = ACTIVE`, `status = final_status` with the
collected rule tags. -/
theorem C5_provisional_write_then_decide (store : Store) (newId : Nat)
    (ctx : EvalContextE)
    (hfresh : ∀ r ∈ store, r.regId ≠ newId)
    (hnone : GetActiveUserRegistration store ctx.ctxUser ctx.ctxActivity = none) :
    ((NewRegistrationEntry newId ctx).status = some RegStatus.enrolled ∧
     (NewRegistrationEntry newId ctx).confirmed = RegistrationConfirm.not_ready ∧
     (NewRegistrationEntry newId ctx).active = RegistrationActive.inactive) ∧
    (∀ result, RulesEvaluate ctx.force_status ctx.programTag ctx.activityTag
        none (some RegStatus.enrolled) ctx.configs = .ok result →
      (result.final_status = none →
        RegisterOnlineUnsafe store newId ctx =
          (.ok (none, result.affecting_rule_configs), store)) ∧
      (∀ s, result.final_status = some s →
        RegisterOnlineUnsafe store newId ctx =
          (.ok (some s,
                if s = RegStatus.enrolled then ∅ else result.affecting_rule_configs),
           store ++ [{ NewRegistrationEntry newId ctx with
                       status := some s,
                       confirmed := RegistrationConfirm.ready,
                       active := RegistrationActive.active,
                       rule_tags := result.all_rule_tags,
                       affecting_rule_tags := result.affecting_rule_tags,
                       affecting_rule_configs := result.affecting_rule_configs }]))) := by
  refine ⟨⟨rfl, rfl, rfl⟩, ?_⟩
  intro result hev
  constructor
  · intro hfin
    simp only [RegisterOnlineUnsafe, hnone, hev, hfin, eq_self_iff_true, if_true,
      reduceCtorEq, if_false, List.filter_append]
    have hq : store.filter (fun r => r.regId != newId) = store :=
      List.filter_eq_self.mpr (fun r hr => by simpa using hfresh r hr)
    rw [hq]
    have hq2 : [NewRegistrationEntry newId ctx].filter (fun r => r.regId != newId)
        = [] := by
      simp [NewRegistrationEntry]
    rw [hq2, List.append_nil]
  · intro s hfin
    simp only [RegisterOnlineUnsafe, hnone, hev, hfin, Option.some.injEq,
      reduceCtorEq, if_false, List.map_append]
    have hmap : store.map (fun r =>
        if r.regId = newId then
          { r with status := some s,
                   confirmed := RegistrationConfirm.ready,
                   active := RegistrationActive.active,
                   rule_tags := result.all_rule_tags,
                   affecting_rule_tags := result.affecting_rule_tags,
                   affecting_rule_configs := result.affecting_rule_configs }
        else r) = store :=
      map_id_on _ store (fun r hr => by simp [hfresh r hr])
    rw [hmap]
    have hmap2 : [NewRegistrationEntry newId ctx].map (fun r =>
        if r.regId = newId then
          { r with status := some s,
                   confirmed := RegistrationConfirm.ready,
                   active := RegistrationActive.active,
                   rule_tags := result.all_rule_tags,
                   affecting_rule_tags := result.affecting_rule_tags,
                   affecting_rule_configs := result.affecting_rule_configs }
        else r) =
        [{ NewRegistrationEntry newId ctx with
           status := some s,
           confirmed := RegistrationConfirm.ready,
           active := RegistrationActive.active,
           rule_tags := result.all_rule_tags,
           affecting_rule_tags := result.affecting_rule_tags,
           affecting_rule_configs := result.affecting_rule_configs }] := by
      simp [NewRegistrationEntry]
    rw [hmap2]

/-- C5 witness: on the empty store the hypotheses hold, so the provisional
entry has the provisional shape and both decision outcomes rewrite the store
as claimed. -/
theorem C5_witness :
    ((NewRegistrationEntry 7 sampleCtx).status = some RegStatus.enrolled ∧
     (NewRegistrationEntry 7 sampleCtx).confirmed = RegistrationConfirm.not_ready ∧
     (NewRegistrationEntry 7 sampleCtx).active = RegistrationActive.inactive) ∧
    (∀ result, RulesEvaluate sampleCtx.force_status sampleCtx.programTag
        sampleCtx.activityTag none (some RegStatus.enrolled) sampleCtx.configs =
          .ok result →
      (result.final_status = none →
        RegisterOnlineUnsafe [] 7 sampleCtx =
          (.ok (none, result.affecting_rule_configs), [])) ∧
      (∀ s, result.final_status = some s →
        RegisterOnlineUnsafe [] 7 sampleCtx =
          (.ok (some s,
                if s = RegStatus.enrolled then ∅ else result.affecting_rule_configs),
           [] ++ [{ NewRegistrationEntry 7 sampleCtx with
                    status := some s,
                    confirmed := RegistrationConfirm.ready,
                    active := RegistrationActive.active,
                    rule_tags := result.all_rule_tags,
                    affecting_rule_tags := result.affecting_rule_tags,
                    affecting_rule_configs := result.affecting_rule_configs }]))) :=
  C5_provisional_write_then_decide [] 7 sampleCtx (by simp) rfl

/-- C6: when the offline path processes a READY UNREGISTERED entry whose
parent enroll is not both PROCESSED and ENROLLED, it releases no offline
resources and saves no reprocess tags, yet still invokes the user
notification and deletes both the unregister row and its parent enroll row. -/
theorem C6_offline_unregister_unprocessed (store : Store)
    (unreg parent : UserRegistration) (ctx : EvalContextE) (result : EvalResult)
    (hp : unreg.parentReg.bind
        (fun pid => store.find? (fun r => r.regId == pid)) = some parent)
    (hne : ¬ (parent.confirmed = RegistrationConfirm.processed ∧
              parent.status = some RegStatus.enrolled))
    (hev : RulesEvaluate ctx.force_status ctx.programTag ctx.activityTag
        parent.status (some RegStatus.unregistered) ctx.configs = .ok result)
    (hfin : result.final_status = some RegStatus.unregistered) :
    UnregisterOfflineUnsafe store unreg ctx =
      .ok ({ online_decremented := !unreg.online_unregistered
             resources_released := false
             reprocess_tags_saved := ∅
             user_notified := true },
           (store.map (fun r => if r.regId = unreg.regId
              then { r with online_unregistered := true } else r)).filter
             (fun r => r.regId != unreg.regId && r.regId != parent.regId)) ∧
    ∀ r ∈ (store.map (fun r => if r.regId = unreg.regId
              then { r with online_unregistered := true } else r)).filter
             (fun r => r.regId != unreg.regId && r.regId != parent.regId),
      r.regId ≠ unreg.regId ∧ r.regId ≠ parent.regId := by
  have hpe : (parent.confirmed == RegistrationConfirm.processed &&
      parent.status == some RegStatus.enrolled) = false := by
    rw [Bool.eq_false_iff]
    intro hcontra
    rw [Bool.and_eq_true] at hcontra
    exact hne ⟨beq_iff_eq.mp hcontra.1, beq_iff_eq.mp hcontra.2⟩
  constructor
  · simp only [UnregisterOfflineUnsafe, hp, hev, hfin, eq_self_iff_true, if_true,
      hpe, Bool.false_eq_true, if_false]
  · intro r hr
    have hr' := (List.mem_filter.mp hr).2
    rw [Bool.and_eq_true] at hr'
    exact ⟨by simpa using hr'.1, by simpa using hr'.2⟩

/-- C6 witness: an unregister row whose parent enroll is still READY (not
PROCESSED) under a rule-free context. -/
theorem C6_witness :
    (UnregisterOfflineUnsafe [sampleParentReg, sampleUnregReg] sampleUnregReg
        sampleCtx =
      .ok ({ online_decremented := !sampleUnregReg.online_unregistered
             resources_released := false
             reprocess_tags_saved := ∅
             user_notified := true },
           (([sampleParentReg, sampleUnregReg].map
               (fun r => if r.regId = sampleUnregReg.regId
                  then { r with online_unregistered := true } else r)).filter
             (fun r => r.regId != sampleUnregReg.regId &&
                       r.regId != sampleParentReg.regId)))) ∧
    ∀ r ∈ (([sampleParentReg, sampleUnregReg].map
               (fun r => if r.regId = sampleUnregReg.regId
                  then { r with online_unregistered := true } else r)).filter
             (fun r => r.regId != sampleUnregReg.regId &&
                       r.regId != sampleParentReg.regId)),
      r.regId ≠ sampleUnregReg.regId ∧ r.regId ≠ sampleParentReg.regId :=
  C6_offline_unregister_unprocessed [sampleParentReg, sampleUnregReg]
    sampleUnregReg sampleParentReg sampleCtx sampleOfflineResult
    rfl (by decide) rfl rfl
